import Mathlib

/-!
Verification of the Inquis_Expense repository (two variants of an expense
tracker: `expnctrackerv2.py`, a Tkinter desktop app, and `expnctrackerv3.py`,
a Streamlit app) against its natural-language specification.

The embedding models:
* the category-suggestion heuristics `suggest_category` of both files
  (case-insensitive substring matching against hard-coded keyword lists);
* the SQLite-backed expense store (table `expenses` with
  `id INTEGER PRIMARY KEY AUTOINCREMENT, date TEXT, description TEXT,
  amount REAL, category TEXT`) and the operations `add_expense`,
  `delete_expense`, `get_all_expenses`, the total and per-category sums.

Modelling conventions:
* SQLite `REAL` amounts are modelled as exact rationals (`ℚ`);
* the current calendar date (`datetime.now().strftime("%Y-%m-%d")`) is an
  explicit `today : String` parameter, since the clock is external input;
* `AUTOINCREMENT` ids are modelled by a `seq` counter holding the largest
  id ever assigned (SQLite's `sqlite_sequence` bookkeeping for an
  `AUTOINCREMENT` column), so fresh ids are `seq + 1` and are never reused.
-/

namespace Inquis

/-- True when the first character list occurs at the head of the second
(character-by-character comparison). Helper for Python's `in` on strings. -/
def leadEq : List Char → List Char → Bool
  | [], _ => true
  | _ :: _, [] => false
  | a :: as, b :: bs => a == b && leadEq as bs

/-- True when `needle` occurs as a contiguous run inside `hay`.
Models Python's substring test `needle in hay`. -/
def occursIn (needle : List Char) : List Char → Bool
  | [] => leadEq needle []
  | c :: cs => leadEq needle (c :: cs) || occursIn needle cs

/-- Python's `w in s` for strings. -/
def pyIn (w s : String) : Bool := occursIn w.data s.data

/-- One character of Python's `str.lower()`: ASCII upper-case letters are
shifted into lower case. All keywords and descriptions this program deals
with are ASCII, where Python's `lower` and this function agree. -/
def pyLowerChar (c : Char) : Char :=
  if 'A' ≤ c ∧ c ≤ 'Z' then Char.ofNat (c.toNat + 32) else c

/-- Python's `description.lower()`. -/
def pyLower (s : String) : String := ⟨s.data.map pyLowerChar⟩

/-- Python's `any(w in s for w in ws)`. -/
def pyAny (s : String) (ws : List String) : Bool := ws.any (fun w => pyIn w s)

/-- `suggest_category` of `expnctrackerv2.py` (lines 28-41): lower-case the
description, then walk an if/elif chain of keyword groups and return the
label of the first group with a substring hit, defaulting to
`"Miscellaneous"`. -/
def suggest_category_v2 (description : String) : String :=
  let desc := pyLower description
  if pyAny desc ["pizza", "food", "coffee", "lunch", "restaurant"] then "Food"
  else if pyAny desc ["uber", "bus", "train", "petrol", "cab"] then "Travel"
  else if pyAny desc ["rent", "bill", "recharge", "electricity"] then "Bills"
  else if pyAny desc ["doctor", "pharmacy", "medicine", "hospital"] then "Health"
  else if pyAny desc ["amazon", "clothes", "mall", "shopping"] then "Shopping"
  else "Miscellaneous"

/-- `suggest_category` of `expnctrackerv3.py` (lines 26-39). Same shape as
the v2 chain but its Food list has `"snack"` and lacks `"lunch"`, and the
Bills and Health lists are in a different order. -/
def suggest_category_v3 (description : String) : String :=
  let desc := pyLower description
  if pyAny desc ["pizza", "food", "coffee", "restaurant", "snack"] then "Food"
  else if pyAny desc ["uber", "bus", "train", "petrol", "cab"] then "Travel"
  else if pyAny desc ["bill", "recharge", "rent", "electricity"] then "Bills"
  else if pyAny desc ["doctor", "medicine", "hospital", "pharmacy"] then "Health"
  else if pyAny desc ["amazon", "clothes", "mall", "shopping"] then "Shopping"
  else "Miscellaneous"

/-- The v2 keyword groups in their priority order, read off the if/elif
chain of `suggest_category` in `expnctrackerv2.py`. -/
def groups_v2 : List (String × List String) :=
  [("Food", ["pizza", "food", "coffee", "lunch", "restaurant"]),
   ("Travel", ["uber", "bus", "train", "petrol", "cab"]),
   ("Bills", ["rent", "bill", "recharge", "electricity"]),
   ("Health", ["doctor", "pharmacy", "medicine", "hospital"]),
   ("Shopping", ["amazon", "clothes", "mall", "shopping"])]

/-- The v3 keyword groups in their priority order, read off the if/elif
chain of `suggest_category` in `expnctrackerv3.py`. -/
def groups_v3 : List (String × List String) :=
  [("Food", ["pizza", "food", "coffee", "restaurant", "snack"]),
   ("Travel", ["uber", "bus", "train", "petrol", "cab"]),
   ("Bills", ["bill", "recharge", "rent", "electricity"]),
   ("Health", ["doctor", "medicine", "hospital", "pharmacy"]),
   ("Shopping", ["amazon", "clothes", "mall", "shopping"])]

/-- First-match semantics of an ordered list of keyword groups: return the
label of the first group with a keyword hit, else `"Miscellaneous"`.
The argument `desc` is the already lower-cased description. -/
def firstMatch (desc : String) : List (String × List String) → String
  | [] => "Miscellaneous"
  | g :: gs => if pyAny desc g.2 then g.1 else firstMatch desc gs

theorem suggest_v2_as_firstMatch (d : String) :
    suggest_category_v2 d = firstMatch (pyLower d) groups_v2 := rfl

theorem suggest_v3_as_firstMatch (d : String) :
    suggest_category_v3 d = firstMatch (pyLower d) groups_v3 := rfl

/-- One row of the `expenses` table. `REAL` amounts are modelled as exact
rationals. -/
structure Row where
  id : ℕ
  date : String
  description : String
  amount : ℚ
  category : String
deriving DecidableEq

/-- The `expenses` table together with the `sqlite_sequence` counter of its
`AUTOINCREMENT` primary key: `seq` is the largest id ever assigned. `rows`
holds the rows in insertion order. -/
structure Store where
  rows : List Row
  seq : ℕ
deriving DecidableEq

/-- The store right after `CREATE TABLE IF NOT EXISTS expenses ...` on a
fresh database file: no rows, no id assigned yet. -/
def initStore : Store := ⟨[], 0⟩

/-- `INSERT INTO expenses (date, description, amount, category) VALUES
(?,?,?,?)`: the `AUTOINCREMENT` key assigns `seq + 1`, one more than the
largest id ever used. -/
def insertRow (st : Store) (date desc : String) (amt : ℚ) (cat : String) : Store :=
  { rows := st.rows ++ [⟨st.seq + 1, date, desc, amt, cat⟩], seq := st.seq + 1 }

/-- `add_expense(desc, amt, cat)` of `expnctrackerv3.py` (lines 42-46):
stamps the current date and inserts, with no validation of its own.
`today` stands for `datetime.now().strftime("%Y-%m-%d")`. -/
def add_expense_v3 (st : Store) (desc : String) (amt : ℚ) (cat today : String) : Store :=
  insertRow st today desc amt cat

/-- The Add-Expense button handler of `expnctrackerv3.py` (lines 78-83):
`if desc and amt > 0: add_expense(...)` else show a warning. Returns the
new store and whether the expense was added. -/
def add_button_v3 (st : Store) (desc : String) (amt : ℚ) (cat today : String) :
    Store × Bool :=
  if desc ≠ "" ∧ 0 < amt then (add_expense_v3 st desc amt cat today, true)
  else (st, false)

/-- Outcome of v2's `add_expense`: the warning message box for a missing
field, the error box for a non-numeric amount, or a successful insert. -/
inductive V2AddOutcome where
  | warnRequired
  | errNotNumber
  | ok
deriving DecidableEq

/-- Digits of a decimal numeral: `some` of its value when every character
is an ASCII digit (the empty list reads as 0), otherwise `none`. -/
def digitsVal (cs : List Char) : Option ℕ :=
  if cs.all Char.isDigit then
    some (cs.foldl (fun a c => 10 * a + (c.toNat - 48)) 0)
  else none

/-- Split a character list at every dot. -/
def splitDots : List Char → List (List Char)
  | [] => [[]]
  | c :: cs =>
    let r := splitDots cs
    if c = '.' then [] :: r
    else
      match r with
      | [] => [[c]]
      | w :: ws => (c :: w) :: ws

/-- An unsigned decimal literal: digits, optionally with one dot and a
fractional part; at least one digit overall. -/
def parseUnsigned (cs : List Char) : Option ℚ :=
  match splitDots cs with
  | [w] => if w = [] then none else (digitsVal w).map (fun n => (n : ℚ))
  | [w, f] =>
    if w = [] ∧ f = [] then none
    else
      match digitsVal w, digitsVal f with
      | some n, some m => some ((n : ℚ) + (m : ℚ) / (10 : ℚ) ^ f.length)
      | _, _ => none
  | _ => none

/-- Models Python's built-in `float()` on plain decimal literals: an
optional sign followed by digits with an optional single dot. It fails on
the empty string and on non-numeric text, and accepts negative literals
such as `"-5"`, exactly as `float` does; exotic float syntax (exponents,
`inf`/`nan`, whitespace, underscores) is not exercised by this program and
is left unparsed. -/
def pyFloat (s : String) : Option ℚ :=
  match s.data with
  | '-' :: rest => (parseUnsigned rest).map (fun q => -q)
  | '+' :: rest => parseUnsigned rest
  | cs => parseUnsigned cs

/-- `add_expense()` of `expnctrackerv2.py` (lines 47-70), restricted to its
store effect: read the three entry fields, warn when description or amount
is empty, error when the amount does not parse as a float, otherwise
insert with the current date. The trailing widget updates (clearing
entries, re-filling the category suggestion, refreshing the table) do not
touch the `expenses` table. -/
def add_expense_v2 (st : Store) (desc amt cat today : String) :
    Store × V2AddOutcome :=
  if desc = "" ∨ amt = "" then (st, .warnRequired)
  else
    match pyFloat amt with
    | none => (st, .errNotNumber)
    | some a => (insertRow st today desc a cat, .ok)

/-- `delete_expense` (`expnctrackerv3.py` lines 49-51; the
`DELETE FROM expenses WHERE id=?` of `expnctrackerv2.py` lines 76-85 is
the same statement): remove every row with the given id. The second
component is the number of rows the DELETE removed (the DB-API
`cursor.rowcount`); SQLite reports 0 rather than an error when no row
matches. -/
def delete_expense (st : Store) (eid : ℕ) : Store × ℕ :=
  ({ st with rows := st.rows.filter (fun r => ! (r.id == eid)) },
   st.rows.countP (fun r => r.id == eid))

/-- `ORDER BY id DESC` as a relation on rows. -/
def idDesc (a b : Row) : Prop := b.id ≤ a.id

instance : DecidableRel idDesc := fun a b => Nat.decLe b.id a.id

instance : IsTotal Row idDesc := ⟨fun a b => Nat.le_total b.id a.id⟩

instance : IsTrans Row idDesc := ⟨fun _ _ _ h1 h2 => Nat.le_trans h2 h1⟩

/-- `get_all_expenses()` of `expnctrackerv3.py` (lines 54-56), i.e.
`SELECT * FROM expenses ORDER BY id DESC` (also the query behind
`refresh_table` in `expnctrackerv2.py` lines 91-97): all rows sorted by id
descending. -/
def get_all_expenses (st : Store) : List Row :=
  st.rows.insertionSort idDesc

/-- Sum of the `amount` column over a list of rows. -/
def amountSum (l : List Row) : ℚ := (l.map Row.amount).sum

/-- `SELECT SUM(amount) FROM expenses`: SQL `SUM` is `NULL` on an empty
table, the sum otherwise. -/
def sql_sum_amount (rows : List Row) : Option ℚ :=
  match rows with
  | [] => none
  | _ => some (amountSum rows)

/-- The total computed by `update_summary` in `expnctrackerv2.py` (lines
130-133): `total if total else 0` maps both `None` (empty table) and a
falsy `0.0` to 0. -/
def update_summary_total (st : Store) : ℚ :=
  match sql_sum_amount st.rows with
  | none => 0
  | some t => if t = 0 then 0 else t

/-- `total_spent = df["amount"].sum()` of `expnctrackerv3.py` (line 110),
where `df = get_all_expenses()`; pandas' sum of an empty column is 0. -/
def total_spent (st : Store) : ℚ := amountSum (get_all_expenses st)

/-- The per-category totals behind `SELECT category, SUM(amount) FROM
expenses GROUP BY category` (`show_chart`, `expnctrackerv2.py` lines
103-111) and `df.groupby("category")["amount"].sum()` (`cat_data`,
`expnctrackerv3.py` line 122): one entry per distinct category, holding
the sum of the amounts of the rows in that category. Both sources only
differ in the order they list the groups, which is immaterial to the
mapping. -/
def sum_by_category (st : Store) : List (String × ℚ) :=
  ((st.rows.map Row.category).dedup).map
    (fun c => (c, amountSum (st.rows.filter (fun r => r.category == c))))

/-- One user action against the store: the v3 `add_expense` (the raw
INSERT, shared with v2's insert path) or `delete_expense`. -/
inductive Op where
  | ins (desc : String) (amt : ℚ) (cat date : String)
  | del (eid : ℕ)

/-- Apply one action to the store. -/
def applyOp (st : Store) : Op → Store
  | .ins d a c dt => add_expense_v3 st d a c dt
  | .del e => (delete_expense st e).1

/-- Run a sequence of actions from a given store. -/
def runOps (st : Store) : List Op → Store
  | [] => st
  | op :: ops => runOps (applyOp st op) ops

/-- The ids handed out by the inserts of an action sequence, in order. -/
def assignedFrom (st : Store) : List Op → List ℕ
  | [] => []
  | op :: ops =>
    match op with
    | .ins _ _ _ _ => (st.seq + 1) :: assignedFrom (applyOp st op) ops
    | .del _ => assignedFrom (applyOp st op) ops

/-- A store state reachable from the fresh database by some sequence of
inserts and deletes. -/
def Reachable (st : Store) : Prop := ∃ ops, runOps initStore ops = st

/-- Internal store invariant: every id is at most `seq`, and the rows are
in strictly increasing id order (so ids are unique). -/
def StoreInv (st : Store) : Prop :=
  (∀ r ∈ st.rows, r.id ≤ st.seq) ∧ st.rows.Pairwise (fun a b => a.id < b.id)

/-! ## Lemmas about the categorizer -/

theorem firstMatch_split (d : String) (pre : List (String × List String)) :
    ∀ (label : String) (kws : List String) (post : List (String × List String)),
      pyAny d kws = true → (∀ g ∈ pre, pyAny d g.2 = false) →
      firstMatch d (pre ++ (label, kws) :: post) = label := by
  induction pre with
  | nil =>
    intro label kws post hk _
    simp [firstMatch, hk]
  | cons g rest ih =>
    intro label kws post hk hpre
    have hg : pyAny d g.2 = false := hpre g (List.mem_cons_self g rest)
    simp only [List.cons_append, firstMatch, hg, Bool.false_eq_true, if_false]
    exact ih label kws post hk (fun x hx => hpre x (List.mem_cons_of_mem g hx))

theorem firstMatch_miss (d : String) :
    ∀ gs : List (String × List String),
      (∀ g ∈ gs, pyAny d g.2 = false) → firstMatch d gs = "Miscellaneous" := by
  intro gs
  induction gs with
  | nil => intro _; rfl
  | cons g rest ih =>
    intro h
    have hg : pyAny d g.2 = false := h g (List.mem_cons_self g rest)
    simp only [firstMatch, hg, Bool.false_eq_true, if_false]
    exact ih (fun x hx => h x (List.mem_cons_of_mem g hx))

/-- C3: `suggest_category` is a total function (it is a Lean `def`) that
tests the keyword groups in the fixed priority order Food, Travel, Bills,
Health, Shopping and returns the label of the first group with a matching
keyword. For every description containing a keyword of some group (as a
case-insensitive substring) and no keyword of any earlier group, it
returns that group's label; a description with no keyword at all — the
empty string included — yields `"Miscellaneous"`. Stated for both
implementations over their own keyword tables (`groups_v2`, `groups_v3`),
the group at priority position `i` being presented as the split
`pre ++ (label, kws) :: post` with `pre` the earlier groups. -/
theorem suggest_category_priority :
    (∀ d pre label kws post, groups_v2 = pre ++ (label, kws) :: post →
        pyAny (pyLower d) kws = true →
        (∀ g ∈ pre, pyAny (pyLower d) g.2 = false) →
        suggest_category_v2 d = label) ∧
    (∀ d, (∀ g ∈ groups_v2, pyAny (pyLower d) g.2 = false) →
        suggest_category_v2 d = "Miscellaneous") ∧
    suggest_category_v2 "" = "Miscellaneous" ∧
    (∀ d pre label kws post, groups_v3 = pre ++ (label, kws) :: post →
        pyAny (pyLower d) kws = true →
        (∀ g ∈ pre, pyAny (pyLower d) g.2 = false) →
        suggest_category_v3 d = label) ∧
    (∀ d, (∀ g ∈ groups_v3, pyAny (pyLower d) g.2 = false) →
        suggest_category_v3 d = "Miscellaneous") ∧
    suggest_category_v3 "" = "Miscellaneous" := by
  refine ⟨?_, ?_, by decide, ?_, ?_, by decide⟩
  · intro d pre label kws post hsplit hk hpre
    rw [suggest_v2_as_firstMatch, hsplit]
    exact firstMatch_split (pyLower d) pre label kws post hk hpre
  · intro d h
    rw [suggest_v2_as_firstMatch]
    exact firstMatch_miss (pyLower d) groups_v2 h
  · intro d pre label kws post hsplit hk hpre
    rw [suggest_v3_as_firstMatch, hsplit]
    exact firstMatch_split (pyLower d) pre label kws post hk hpre
  · intro d h
    rw [suggest_v3_as_firstMatch]
    exact firstMatch_miss (pyLower d) groups_v3 h

/-- Witness for C3: the Travel group (priority position 1, after Food) wins
on `"Bus fare"` in v2, and the Bills group (position 2) wins on
`"monthly rent"` in v3; both discharge the priority hypotheses on concrete
input. -/
theorem suggest_category_priority_witness :
    suggest_category_v2 "Bus fare" = "Travel" ∧
    suggest_category_v3 "monthly rent" = "Bills" := by
  constructor
  · exact suggest_category_priority.1 "Bus fare" (groups_v2.take 1) "Travel"
      ["uber", "bus", "train", "petrol", "cab"] (groups_v2.drop 2)
      (by decide) (by decide) (by decide)
  · exact suggest_category_priority.2.2.2.1 "monthly rent" (groups_v3.take 2) "Bills"
      ["bill", "recharge", "rent", "electricity"] (groups_v3.drop 3)
      (by decide) (by decide) (by decide)

/-- C1 counterexample: the spec's Food keyword set
{pizza, food, coffee, lunch, restaurant, snack} is implemented by neither
version. `"snack"` is one of the spec's six Food keywords, it is contained
in the description `"snack"`, that description matches no keyword of any
other group, and yet v2 returns `"Miscellaneous"` (its Food list has no
`"snack"`); symmetrically `"lunch"` gets `"Miscellaneous"` from v3. -/
theorem food_keywords_counterexample :
    (pyIn "snack" (pyLower "snack") = true ∧
     (∀ g ∈ groups_v2, g.1 ≠ "Food" → pyAny (pyLower "snack") g.2 = false) ∧
     suggest_category_v2 "snack" = "Miscellaneous" ∧
     suggest_category_v2 "snack" ≠ "Food") ∧
    (pyIn "lunch" (pyLower "lunch") = true ∧
     (∀ g ∈ groups_v3, g.1 ≠ "Food" → pyAny (pyLower "lunch") g.2 = false) ∧
     suggest_category_v3 "lunch" = "Miscellaneous" ∧
     suggest_category_v3 "lunch" ≠ "Food") := by
  decide

/-- C1 as amended: v2's Food keyword set is exactly
{pizza, food, coffee, lunch, restaurant} and v3's is exactly
{pizza, food, coffee, restaurant, snack}; for every description containing
one of the version's own Food keywords case-insensitively, that version's
`suggest_category` returns `"Food"` (Food is the first group tried, so no
further side condition is needed). -/
theorem food_keywords_as_implemented :
    (∀ d, pyAny (pyLower d) ["pizza", "food", "coffee", "lunch", "restaurant"] = true →
        suggest_category_v2 d = "Food") ∧
    (∀ d, pyAny (pyLower d) ["pizza", "food", "coffee", "restaurant", "snack"] = true →
        suggest_category_v3 d = "Food") := by
  constructor
  · intro d h
    rw [suggest_v2_as_firstMatch]
    exact firstMatch_split (pyLower d) [] "Food"
      ["pizza", "food", "coffee", "lunch", "restaurant"] (groups_v2.drop 1) h
      (fun g hg => absurd hg (List.not_mem_nil g))
  · intro d h
    rw [suggest_v3_as_firstMatch]
    exact firstMatch_split (pyLower d) [] "Food"
      ["pizza", "food", "coffee", "restaurant", "snack"] (groups_v3.drop 1) h
      (fun g hg => absurd hg (List.not_mem_nil g))

/-- Witness for the amended C1 at concrete inputs of each version. -/
theorem food_keywords_as_implemented_witness :
    suggest_category_v2 "LUNCH with Ann" = "Food" ∧
    suggest_category_v3 "Evening SNACK" = "Food" :=
  ⟨food_keywords_as_implemented.1 "LUNCH with Ann" (by decide),
   food_keywords_as_implemented.2 "Evening SNACK" (by decide)⟩

/-! ## Insert validation (C2) -/

/-- C2 counterexample: inserting with amount `"-5"` (and a non-empty
description) does NOT raise a validation error in v2 — `float("-5")`
parses, the negative record is persisted, and `list_all` changes. -/
theorem insert_validation_counterexample :
    add_expense_v2 initStore "x" "-5" "Misc" "2026-10-12"
      = ({ rows := [⟨1, "2026-10-12", "x", -5, "Misc"⟩], seq := 1 }, V2AddOutcome.ok) ∧
    get_all_expenses (add_expense_v2 initStore "x" "-5" "Misc" "2026-10-12").1
      ≠ get_all_expenses initStore := by
  constructor <;> decide

/-- C2 as amended: v2's `add_expense` rejects an empty description, an
empty amount string, and an unparsable amount — in each case no record is
created and the store (hence `list_all()`) is unchanged — but it performs
no sign check: any parseable amount, `-5` included, is inserted. In v3 the
validation lives in the UI button handler, which only inserts when the
description is non-empty and the amount is strictly positive and otherwise
leaves the store unchanged; `add_expense` itself validates nothing. -/
theorem add_expense_validation :
    (∀ st amt cat today,
        add_expense_v2 st "" amt cat today = (st, V2AddOutcome.warnRequired)) ∧
    (∀ st desc cat today,
        add_expense_v2 st desc "" cat today = (st, V2AddOutcome.warnRequired)) ∧
    (∀ st desc amt cat today, pyFloat amt = none →
        add_expense_v2 st desc amt cat today = (st, V2AddOutcome.warnRequired) ∨
        add_expense_v2 st desc amt cat today = (st, V2AddOutcome.errNotNumber)) ∧
    (∀ st desc amt cat today q, desc ≠ "" → amt ≠ "" → pyFloat amt = some q →
        add_expense_v2 st desc amt cat today
          = (insertRow st today desc q cat, V2AddOutcome.ok)) ∧
    (∀ st desc amt cat today, desc = "" ∨ ¬ 0 < amt →
        add_button_v3 st desc amt cat today = (st, false)) ∧
    (∀ st desc amt cat today, desc ≠ "" → 0 < amt →
        add_button_v3 st desc amt cat today
          = (add_expense_v3 st desc amt cat today, true)) := by
  refine ⟨?_, ?_, ?_, ?_, ?_, ?_⟩
  · intro st amt cat today
    simp [add_expense_v2]
  · intro st desc cat today
    simp [add_expense_v2]
  · intro st desc amt cat today hnone
    by_cases h : desc = "" ∨ amt = ""
    · left; simp [add_expense_v2, h]
    · right; simp [add_expense_v2, h, hnone]
  · intro st desc amt cat today q hd ha hq
    have h : ¬ (desc = "" ∨ amt = "") := by
      intro hc; rcases hc with hc | hc
      · exact hd hc
      · exact ha hc
    simp [add_expense_v2, h, hq]
  · intro st desc amt cat today h
    have h2 : ¬ (desc ≠ "" ∧ 0 < amt) := by
      intro hc; rcases h with h | h
      · exact hc.1 h
      · exact h hc.2
    simp [add_button_v3, h2]
  · intro st desc amt cat today hd ha
    simp [add_button_v3, hd, ha]

/-- Witness for the amended C2: v2 inserts the negative amount `-5`, and
rejects the non-numeric amount `"abc"` leaving the store unchanged. -/
theorem add_expense_validation_witness :
    add_expense_v2 initStore "snacks" "-5" "Misc" "2026-10-12"
      = (insertRow initStore "2026-10-12" "snacks" (-5) "Misc", V2AddOutcome.ok) ∧
    add_button_v3 initStore "" (5 : ℚ) "Misc" "2026-10-12" = (initStore, false) :=
  ⟨add_expense_validation.2.2.2.1 initStore "snacks" "-5" "Misc" "2026-10-12" (-5)
      (by decide) (by decide) (by decide),
   add_expense_validation.2.2.2.2.1 initStore "" 5 "Misc" "2026-10-12" (Or.inl rfl)⟩

/-! ## Store invariant and reachability -/

theorem storeInv_init : StoreInv initStore :=
  ⟨fun r hr => absurd hr (List.not_mem_nil r), List.Pairwise.nil⟩

theorem storeInv_insert (st : Store) (h : StoreInv st) (date desc : String)
    (amt : ℚ) (cat : String) : StoreInv (insertRow st date desc amt cat) := by
  obtain ⟨hle, hpw⟩ := h
  constructor
  · intro r hr
    simp only [insertRow, List.mem_append, List.mem_singleton] at hr
    rcases hr with hr | hr
    · exact Nat.le_succ_of_le (hle r hr)
    · subst hr; exact Nat.le_refl _
  · refine List.pairwise_append.mpr ⟨hpw, List.pairwise_singleton _ _, ?_⟩
    intro a ha b hb
    simp only [List.mem_singleton] at hb
    subst hb
    exact Nat.lt_succ_of_le (hle a ha)

theorem storeInv_delete (st : Store) (h : StoreInv st) (eid : ℕ) :
    StoreInv (delete_expense st eid).1 := by
  obtain ⟨hle, hpw⟩ := h
  constructor
  · intro r hr
    exact hle r (List.mem_filter.mp hr).1
  · exact hpw.sublist (List.filter_sublist st.rows)

theorem storeInv_runOps (ops : List Op) :
    ∀ st : Store, StoreInv st → StoreInv (runOps st ops) := by
  induction ops with
  | nil => exact fun st h => h
  | cons op ops ih =>
    intro st h
    cases op with
    | ins d a c dt => exact ih _ (storeInv_insert st h dt d a c)
    | del e => exact ih _ (storeInv_delete st h e)

theorem reachable_storeInv (st : Store) (h : Reachable st) : StoreInv st := by
  obtain ⟨ops, rfl⟩ := h
  exact storeInv_runOps ops initStore storeInv_init

/-! ## Round trip (C4) -/

/-- C4: from any reachable prior store, inserting a valid expense and then
listing yields, up to the descending ordering, exactly the prior records
plus one new record carrying the inserted description, amount and
category, stamped with the current date and an id distinct from every
existing id. -/
theorem insert_list_all_round_trip (st : Store) (h : Reachable st) (desc : String)
    (amt : ℚ) (cat today : String) (_hd : desc ≠ "") (_ha : 0 ≤ amt) :
    List.Perm (get_all_expenses (add_expense_v3 st desc amt cat today))
      (Row.mk (st.seq + 1) today desc amt cat :: get_all_expenses st) ∧
    (∀ r ∈ get_all_expenses st, r.id ≠ st.seq + 1) := by
  have hinv := reachable_storeInv st h
  constructor
  · have h1 : List.Perm (get_all_expenses (add_expense_v3 st desc amt cat today))
        (st.rows ++ [Row.mk (st.seq + 1) today desc amt cat]) :=
      List.perm_insertionSort idDesc _
    have h2 := List.perm_append_singleton (Row.mk (st.seq + 1) today desc amt cat) st.rows
    have h3 : List.Perm st.rows (get_all_expenses st) :=
      (List.perm_insertionSort idDesc st.rows).symm
    exact h1.trans (h2.trans (h3.cons _))
  · intro r hr hid
    have hr2 : r ∈ st.rows := (List.perm_insertionSort idDesc st.rows).mem_iff.mp hr
    have := hinv.1 r hr2
    omega

/-- Witness for C4 on the empty store: inserting `("Pizza night", 450,
"Food")` dated 2026-10-12 yields exactly that one record with the fresh
id 1. -/
theorem insert_list_all_round_trip_witness :
    List.Perm (get_all_expenses (add_expense_v3 initStore "Pizza night" 450 "Food" "2026-10-12"))
      (Row.mk 1 "2026-10-12" "Pizza night" 450 "Food" :: get_all_expenses initStore) ∧
    (∀ r ∈ get_all_expenses initStore, r.id ≠ 1) :=
  insert_list_all_round_trip initStore ⟨[], rfl⟩ "Pizza night" 450 "Food" "2026-10-12"
    (by decide) (by norm_num)

/-! ## Totals (C5, C6) -/

theorem amountSum_nil : amountSum [] = 0 := rfl

theorem amountSum_cons (r : Row) (l : List Row) :
    amountSum (r :: l) = r.amount + amountSum l := by
  simp [amountSum]

theorem amountSum_perm {l1 l2 : List Row} (h : List.Perm l1 l2) :
    amountSum l1 = amountSum l2 :=
  (h.map Row.amount).sum_eq

theorem update_summary_total_eq (st : Store) :
    update_summary_total st = amountSum st.rows := by
  unfold update_summary_total sql_sum_amount
  cases hrows : st.rows with
  | nil => simp [amountSum_nil]
  | cons r l =>
    simp only []
    by_cases hz : amountSum (r :: l) = 0
    · simp [hz]
    · simp [hz]

theorem total_spent_eq (st : Store) : total_spent st = amountSum st.rows :=
  amountSum_perm (List.perm_insertionSort idDesc st.rows)

/-- C5: both implementations' total — the `SELECT SUM(amount)` shown by
v2's `update_summary` and v3's `df["amount"].sum()` — equals the sum of
the `amount` field over the records returned by `list_all`, and is 0 when
no records exist. Stated for reachable stores, as the claim does. -/
theorem total_equals_list_sum (st : Store) (_h : Reachable st) :
    update_summary_total st = amountSum (get_all_expenses st) ∧
    total_spent st = amountSum (get_all_expenses st) ∧
    (st.rows = [] → update_summary_total st = 0 ∧ total_spent st = 0) := by
  have hget : amountSum (get_all_expenses st) = amountSum st.rows :=
    amountSum_perm (List.perm_insertionSort idDesc st.rows)
  refine ⟨?_, ?_, ?_⟩
  · rw [update_summary_total_eq, hget]
  · rw [total_spent_eq, hget]
  · intro hnil
    rw [update_summary_total_eq, total_spent_eq, hnil]
    exact ⟨amountSum_nil, amountSum_nil⟩

/-- Witness for C5 at a reachable two-record store. -/
theorem total_equals_list_sum_witness :
    update_summary_total (runOps initStore [Op.ins "a" 1 "Food" "d", Op.ins "b" 2 "Bills" "d"])
      = amountSum (get_all_expenses (runOps initStore [Op.ins "a" 1 "Food" "d", Op.ins "b" 2 "Bills" "d"])) ∧
    total_spent (runOps initStore [Op.ins "a" 1 "Food" "d", Op.ins "b" 2 "Bills" "d"])
      = amountSum (get_all_expenses (runOps initStore [Op.ins "a" 1 "Food" "d", Op.ins "b" 2 "Bills" "d"])) ∧
    ((runOps initStore [Op.ins "a" 1 "Food" "d", Op.ins "b" 2 "Bills" "d"]).rows = [] →
      update_summary_total (runOps initStore [Op.ins "a" 1 "Food" "d", Op.ins "b" 2 "Bills" "d"]) = 0 ∧
      total_spent (runOps initStore [Op.ins "a" 1 "Food" "d", Op.ins "b" 2 "Bills" "d"]) = 0) :=
  total_equals_list_sum (runOps initStore [Op.ins "a" 1 "Food" "d", Op.ins "b" 2 "Bills" "d"])
    ⟨[Op.ins "a" 1 "Food" "d", Op.ins "b" 2 "Bills" "d"], rfl⟩

theorem amountSum_filter_not (rows : List Row) (p : Row → Bool) :
    amountSum rows
      = amountSum (rows.filter p) + amountSum (rows.filter (fun r => ! p r)) := by
  induction rows with
  | nil => simp [amountSum_nil]
  | cons r rs ih =>
    cases hp : p r with
    | true =>
      rw [amountSum_cons, ih, List.filter_cons_of_pos hp,
        List.filter_cons_of_neg (by simp [hp]), amountSum_cons]
      ring
    | false =>
      rw [amountSum_cons, ih, List.filter_cons_of_neg (by simp [hp]),
        List.filter_cons_of_pos (by simp [hp]), amountSum_cons]
      ring

theorem amountSum_grouped (cats : List String) :
    ∀ rows : List Row, cats.Nodup → (∀ r ∈ rows, r.category ∈ cats) →
      (cats.map (fun c => amountSum (rows.filter (fun r => r.category == c)))).sum
        = amountSum rows := by
  induction cats with
  | nil =>
    intro rows _ hall
    have hnil : rows = [] :=
      List.eq_nil_iff_forall_not_mem.mpr (fun r hr => by simpa using hall r hr)
    subst hnil; rfl
  | cons c cs ih =>
    intro rows hnd hall
    obtain ⟨hcn, hnd2⟩ := List.nodup_cons.mp hnd
    have hmap : ∀ c2 ∈ cs,
        amountSum (rows.filter (fun r => r.category == c2))
          = amountSum ((rows.filter (fun r => ! (r.category == c))).filter
              (fun r => r.category == c2)) := by
      intro c2 hc2
      congr 1
      rw [List.filter_filter]
      refine (List.filter_congr ?_).symm
      intro r _
      cases hr : r.category == c2 with
      | true =>
        have hrc : r.category = c2 := by simpa using hr
        have hne : ¬ c2 = c := fun e => hcn (e ▸ hc2)
        simp [hrc, hne]
      | false => simp [hr]
    have hcomplete : ∀ r ∈ rows.filter (fun r => ! (r.category == c)), r.category ∈ cs := by
      intro r hr
      obtain ⟨hr1, hr2⟩ := List.mem_filter.mp hr
      have : r.category ≠ c := by simpa using hr2
      have := hall r hr1
      simp only [List.mem_cons] at this
      exact this.resolve_left ‹r.category ≠ c›
    have hrec := ih (rows.filter (fun r => ! (r.category == c))) hnd2 hcomplete
    rw [List.map_cons, List.sum_cons,
      List.map_congr_left hmap, hrec,
      amountSum_filter_not rows (fun r => r.category == c)]

/-- C6: the values of the per-category sums (`GROUP BY category` in v2's
`show_chart`, `groupby("category")` in v3's reports) add up to the total,
in both implementations' renderings of the total. -/
theorem sum_by_category_matches_total (st : Store) :
    ((sum_by_category st).map Prod.snd).sum = update_summary_total st ∧
    ((sum_by_category st).map Prod.snd).sum = total_spent st := by
  have key : ((sum_by_category st).map Prod.snd).sum = amountSum st.rows := by
    unfold sum_by_category
    rw [List.map_map]
    exact amountSum_grouped ((st.rows.map Row.category).dedup) st.rows
      (List.nodup_dedup _)
      (fun r hr => List.mem_dedup.mpr (List.mem_map_of_mem Row.category hr))
  exact ⟨key.trans (update_summary_total_eq st).symm, key.trans (total_spent_eq st).symm⟩

/-- Witness for C6 at a concrete three-record, two-category store. -/
theorem sum_by_category_matches_total_witness :
    ((sum_by_category (runOps initStore
        [Op.ins "a" 1 "Food" "d", Op.ins "b" 2 "Bills" "d", Op.ins "c" 4 "Food" "d"])).map
      Prod.snd).sum
      = update_summary_total (runOps initStore
          [Op.ins "a" 1 "Food" "d", Op.ins "b" 2 "Bills" "d", Op.ins "c" 4 "Food" "d"]) :=
  (sum_by_category_matches_total (runOps initStore
    [Op.ins "a" 1 "Food" "d", Op.ins "b" 2 "Bills" "d", Op.ins "c" 4 "Food" "d"])).1

/-! ## Listing order (C7) -/

/-- C7: `list_all` (`SELECT * FROM expenses ORDER BY id DESC`) returns
every stored record exactly once — it is a duplicate-free permutation of
the table — in strictly descending id order, so the most recently inserted
record comes first. -/
theorem list_all_ordered (st : Store) (h : Reachable st) :
    List.Perm (get_all_expenses st) st.rows ∧
    (get_all_expenses st).Pairwise (fun a b => b.id < a.id) ∧
    (get_all_expenses st).Nodup := by
  have hinv := reachable_storeInv st h
  have hperm : List.Perm (get_all_expenses st) st.rows :=
    List.perm_insertionSort idDesc st.rows
  have hsorted : (get_all_expenses st).Pairwise idDesc :=
    List.sorted_insertionSort idDesc st.rows
  have hne_rows : st.rows.Pairwise (fun a b => a.id ≠ b.id) :=
    hinv.2.imp (fun hlt => Nat.ne_of_lt hlt)
  have hne : (get_all_expenses st).Pairwise (fun a b => a.id ≠ b.id) :=
    (hperm.pairwise_iff (fun hab => Ne.symm hab)).mpr hne_rows
  have hstrict : (get_all_expenses st).Pairwise (fun a b => b.id < a.id) :=
    (hsorted.and hne).imp
      (fun hab => Nat.lt_of_le_of_ne hab.1 (fun e => hab.2 e.symm))
  refine ⟨hperm, hstrict, ?_⟩
  exact hstrict.imp (fun hlt e => by subst e; exact Nat.lt_irrefl _ hlt)

/-- Witness for C7 at a reachable store built by two inserts and a
delete. -/
theorem list_all_ordered_witness :
    List.Perm (get_all_expenses (runOps initStore
        [Op.ins "a" 1 "Food" "d", Op.ins "b" 2 "Bills" "d", Op.del 1]))
      (runOps initStore
        [Op.ins "a" 1 "Food" "d", Op.ins "b" 2 "Bills" "d", Op.del 1]).rows ∧
    (get_all_expenses (runOps initStore
        [Op.ins "a" 1 "Food" "d", Op.ins "b" 2 "Bills" "d", Op.del 1])).Pairwise
      (fun a b => b.id < a.id) ∧
    (get_all_expenses (runOps initStore
        [Op.ins "a" 1 "Food" "d", Op.ins "b" 2 "Bills" "d", Op.del 1])).Nodup :=
  list_all_ordered (runOps initStore
      [Op.ins "a" 1 "Food" "d", Op.ins "b" 2 "Bills" "d", Op.del 1])
    ⟨[Op.ins "a" 1 "Food" "d", Op.ins "b" 2 "Bills" "d", Op.del 1], rfl⟩

/-! ## Deletion (C8, C10) -/

/-- C8: `delete_expense` removes the record with the given id if present
and is an idempotent no-op otherwise. A second delete of the same id
reports 0 rows removed (the statement's rowcount) and leaves the store
exactly as after the first call; deleting an id absent from the store
changes nothing and reports 0 — it is a total function, never an error. -/
theorem delete_idempotent (st : Store) (eid : ℕ) :
    (delete_expense (delete_expense st eid).1 eid).1 = (delete_expense st eid).1 ∧
    (delete_expense (delete_expense st eid).1 eid).2 = 0 ∧
    ((∀ r ∈ st.rows, r.id ≠ eid) → delete_expense st eid = (st, 0)) := by
  refine ⟨?_, ?_, ?_⟩
  · have h1 : (delete_expense (delete_expense st eid).1 eid).1
        = Store.mk
            ((st.rows.filter (fun r => ! (r.id == eid))).filter (fun r => ! (r.id == eid)))
            st.seq := rfl
    have h2 : (st.rows.filter (fun r => ! (r.id == eid))).filter (fun r => ! (r.id == eid))
        = st.rows.filter (fun r => ! (r.id == eid)) := by
      rw [List.filter_filter]
      exact List.filter_congr (fun a _ => Bool.and_self _)
    rw [h1, h2]
    rfl
  · show List.countP _ (st.rows.filter _) = 0
    refine List.countP_eq_zero.mpr ?_
    intro a ha
    have := (List.mem_filter.mp ha).2
    simp only [Bool.not_eq_eq_eq_not, Bool.not_true] at this
    simp [this]
  · intro h
    have h1 : st.rows.filter (fun r => ! (r.id == eid)) = st.rows :=
      List.filter_eq_self.mpr (fun a ha => by simp [h a ha])
    have h2 : List.countP (fun r => r.id == eid) st.rows = 0 :=
      List.countP_eq_zero.mpr (fun a ha => by simp [h a ha])
    unfold delete_expense
    rw [h1, h2]

/-- Witness for C8: deleting id 2 from a one-record store (id 1) is a
no-op reporting 0 removed, and the double delete of id 1 agrees after one
application. -/
theorem delete_idempotent_witness :
    delete_expense (add_expense_v3 initStore "a" 1 "Food" "d") 2
      = (add_expense_v3 initStore "a" 1 "Food" "d", 0) :=
  (delete_idempotent (add_expense_v3 initStore "a" 1 "Food" "d") 2).2.2 (by decide)

/-- C10: the frame of the mutating operations. `delete_expense` keeps
exactly the records whose id differs from the argument, each verbatim
(same id, date, description, amount, category) and in their original
order, and does not touch the id counter; insertion appends one new record
and leaves every prior record in place unchanged. The read operations
(`get_all_expenses`, the totals, `sum_by_category`) are pure functions of
the store and modify nothing by construction. -/
theorem mutation_frame (st : Store) (eid : ℕ) :
    (delete_expense st eid).1.rows = st.rows.filter (fun r => ! (r.id == eid)) ∧
    (delete_expense st eid).1.seq = st.seq ∧
    (∀ r : Row, r ∈ (delete_expense st eid).1.rows ↔ r ∈ st.rows ∧ r.id ≠ eid) ∧
    (∀ desc amt cat today,
      (add_expense_v3 st desc amt cat today).rows
        = st.rows ++ [Row.mk (st.seq + 1) today desc amt cat]) := by
  refine ⟨rfl, rfl, ?_, fun _ _ _ _ => rfl⟩
  intro r
  simp [delete_expense, List.mem_filter]

/-- Witness for C10: deleting id 1 from a two-record store keeps the id-2
record with all its fields intact. -/
theorem mutation_frame_witness :
    Row.mk 2 "d" "b" 2 "Bills" ∈
        (delete_expense (add_expense_v3 (add_expense_v3 initStore "a" 1 "Food" "d")
          "b" 2 "Bills" "d") 1).1.rows ↔
      Row.mk 2 "d" "b" 2 "Bills" ∈
          (add_expense_v3 (add_expense_v3 initStore "a" 1 "Food" "d")
            "b" 2 "Bills" "d").rows ∧
        (Row.mk 2 "d" "b" 2 "Bills").id ≠ 1 :=
  (mutation_frame (add_expense_v3 (add_expense_v3 initStore "a" 1 "Food" "d")
    "b" 2 "Bills" "d") 1).2.2.1 (Row.mk 2 "d" "b" 2 "Bills")

/-! ## Id assignment (C9) -/

theorem assigned_bounds (ops : List Op) :
    ∀ st : Store,
      (∀ i ∈ assignedFrom st ops, st.seq < i ∧ i ≤ (runOps st ops).seq) ∧
      st.seq ≤ (runOps st ops).seq ∧
      (assignedFrom st ops).Pairwise (· < ·) := by
  induction ops with
  | nil =>
    intro st
    exact ⟨fun i hi => absurd hi (List.not_mem_nil i), Nat.le_refl _, List.Pairwise.nil⟩
  | cons op ops ih =>
    intro st
    cases op with
    | ins d a c dt =>
      obtain ⟨hmem, hseq, hpw⟩ := ih (applyOp st (.ins d a c dt))
      have hstep : (applyOp st (.ins d a c dt)).seq = st.seq + 1 := rfl
      refine ⟨?_, ?_, ?_⟩
      · intro i hi
        rcases List.mem_cons.mp hi with hi | hi
        · subst hi
          refine ⟨Nat.lt_succ_self _, ?_⟩
          have hrun : (applyOp st (Op.ins d a c dt)).seq
              ≤ (runOps st (Op.ins d a c dt :: ops)).seq := hseq
          rw [hstep] at hrun
          exact hrun
        · obtain ⟨h1, h2⟩ := hmem i hi
          rw [hstep] at h1
          exact ⟨Nat.lt_of_succ_lt h1, h2⟩
      · have hup : st.seq ≤ (applyOp st (.ins d a c dt)).seq := by
          rw [hstep]; exact Nat.le_succ _
        exact Nat.le_trans hup hseq
      · refine List.pairwise_cons.mpr ⟨?_, hpw⟩
        intro j hj
        have hj2 := (hmem j hj).1
        rw [hstep] at hj2
        exact hj2
    | del e =>
      obtain ⟨hmem, hseq, hpw⟩ := ih (applyOp st (.del e))
      have hstep : (applyOp st (.del e)).seq = st.seq := rfl
      refine ⟨?_, ?_, ?_⟩
      · intro i hi
        obtain ⟨h1, h2⟩ := hmem i hi
        rw [hstep] at h1
        exact ⟨h1, h2⟩
      · rw [← hstep]; exact hseq
      · exact hpw

/-- C9: across every sequence of inserts and deletes from a fresh store,
the ids handed out by the inserts form a strictly increasing — hence
duplicate-free — sequence: each id returned by an insert is strictly
greater than every id ever assigned before it, ids of since-deleted
records included. Moreover in every reachable store the stored ids are in
strictly increasing insertion order, so they are unique. -/
theorem ids_strictly_increasing :
    (∀ ops : List Op,
      (assignedFrom initStore ops).Pairwise (· < ·) ∧
      (assignedFrom initStore ops).Nodup) ∧
    (∀ st : Store, Reachable st → st.rows.Pairwise (fun a b => a.id < b.id)) := by
  constructor
  · intro ops
    have h := (assigned_bounds ops initStore).2.2
    exact ⟨h, h.imp (fun hlt => Nat.ne_of_lt hlt)⟩
  · intro st h
    exact (reachable_storeInv st h).2

/-- Witness for C9 at the trace insert, delete, insert: the id 1 of the
deleted record is not reused, the second insert gets the strictly larger
id 2. -/
theorem ids_strictly_increasing_witness :
    (assignedFrom initStore [Op.ins "a" 1 "Food" "d", Op.del 1, Op.ins "b" 2 "Bills" "d"]).Pairwise
      (· < ·) ∧
    (assignedFrom initStore [Op.ins "a" 1 "Food" "d", Op.del 1, Op.ins "b" 2 "Bills" "d"]).Nodup :=
  ids_strictly_increasing.1 [Op.ins "a" 1 "Food" "d", Op.del 1, Op.ins "b" 2 "Bills" "d"]

end Inquis
